import Mathlib

/-!
Verification of the Aura sleep/weight tracker's core logic (server in
src/unnamed/part_000, with the older variant in src/bot.js where a claim
is about it). The JavaScript functions are shallowly embedded: JS numbers
are modelled as integers/rationals, `HH:MM` strings as Lean `String`s
with an explicit split-and-parse model of the fragment of JS `Number`
conversion that digit strings exercise, thrown errors as `Except`, and
HTTP error responses as explicit status/body pairs.
-/

namespace Aura

/-! ## Time arithmetic (`timeToMinutes`, part_000 lines 126-129) -/

/-- Splitting a character list at each `:` separator, modelling JS
`String.prototype.split(':')` (which never returns an empty array: an
input with no separator yields a one-element array). -/
def splitAux : List Char → List Char → List (List Char)
  | [], acc => [acc.reverse]
  | c :: rest, acc =>
      if c = ':' then acc.reverse :: splitAux rest [] else splitAux rest (c :: acc)

/-- `s.split(':')` on the string's characters. -/
def splitOnColon (s : String) : List (List Char) :=
  splitAux s.data []

/-- Value of a decimal digit string, most significant first. -/
def digitsVal (cs : List Char) : ℕ :=
  cs.foldl (fun a c => 10 * a + (c.toNat - 48)) 0

/-- The fragment of JS `Number(str)` coercion that the time fields
exercise: an empty string coerces to 0, a nonempty all-digit string to
its decimal value, and anything else (including `Number(undefined)`) to
NaN, modelled as `none`. Signed, fractional, hex and whitespace-padded
numerals do not occur in `HH:MM` fields and are mapped to `none`. -/
def jsNum (cs : List Char) : Option ℕ :=
  if cs = [] then some 0
  else if cs.all Char.isDigit then some (digitsVal cs)
  else none

/-- `timeToMinutes` (part_000 lines 126-129): split on `:`, coerce the
first two parts with `Number`, return `h * 60 + m`. A missing second
part gives `Number(undefined) = NaN`; any NaN operand makes the result
NaN (`none`). No validation or error of any kind is performed. -/
def timeToMinutes (s : String) : Option ℕ :=
  match splitOnColon s with
  | p0 :: p1 :: _ =>
      match jsNum p0, jsNum p1 with
      | some h, some m => some (h * 60 + m)
      | _, _ => none
  | _ => none

/-- Spec-side well-formedness of an `HH:MM` string (§4.1): exactly two
colon-separated digit fields, hours in 0..23, minutes in 0..59. -/
def validHHMM (s : String) : Bool :=
  match splitOnColon s with
  | [p0, p1] =>
      !p0.isEmpty && p0.all Char.isDigit && !p1.isEmpty && p1.all Char.isDigit &&
        digitsVal p0 ≤ 23 && digitsVal p1 ≤ 59
  | _ => false

/-- The hour component read by the scorer: `const [h] = s.split(':').map(Number)`. -/
def jsHour (s : String) : Option ℕ :=
  match splitOnColon s with
  | p :: _ => jsNum p
  | [] => none

/-! ## Sleep quality scorer (`calculateSleepQuality`, part_000 lines 71-94) -/

/-- The hour component the scorer extracts from an optional start string.
`none` for the string models an absent (falsy) `sleepStart` argument. -/
def jsHourOpt : Option String → Option ℕ
  | none => none
  | some s => jsHour s

/-- The initial `quality` assignment of `calculateSleepQuality`
(part_000 lines 72-83): the duration if-chain, defaulting to 5. -/
def baseQuality (hours : ℚ) : ℤ :=
  if 7 ≤ hours ∧ hours ≤ 9 then 8
  else if 6 ≤ hours ∧ hours < 7 then 6
  else if 9 < hours ∧ hours ≤ 10 then 7
  else if hours ≤ 5 then 3
  else 5

/-- The late-bedtime penalty (part_000 lines 86-91): when a start time
was supplied and its parsed hour is in [1,6), subtract 2 and floor at 1.
An unparsable hour (NaN) falsifies both JS comparisons, so no penalty
applies. -/
def applyLatePenalty (q : ℤ) : Option ℕ → ℤ
  | some h => if 1 ≤ h ∧ h < 6 then max 1 (q - 2) else q
  | none => q

/-- `calculateSleepQuality(hours, sleepStart)` (part_000 lines 71-94):
base quality by the duration if-chain, the late-bedtime penalty, and the
final `Math.max(1, Math.min(10, quality))` clamp. -/
def calculateSleepQuality (hours : ℚ) (sleepStart : Option String) : ℤ :=
  max 1 (min 10 (applyLatePenalty (baseQuality hours) (jsHourOpt sleepStart)))

/-- Base score by duration band as the spec lists it (§4.2), in the
given priority order, first match wins. -/
def spec_band (hours : ℚ) : ℤ :=
  if 7 ≤ hours ∧ hours ≤ 9 then 8
  else if 6 ≤ hours ∧ hours < 7 then 6
  else if 9 < hours ∧ hours ≤ 10 then 7
  else if hours ≤ 5 then 3
  else 5

/-- The spec's late-bedtime penalty (§4.2): if a start hour is supplied
and falls in [1,6), subtract 2 from the base score, floored at 1. -/
def spec_penalty (base : ℤ) : Option ℕ → ℤ
  | some h => if 1 ≤ h ∧ h < 6 then max 1 (base - 2) else base
  | none => base

/-- Reference scorer written from the spec's words (§4.2): banded base
score, late-bedtime penalty, final score clamped to [1,10]. The start is
given directly as its hour component. -/
def score_spec (hours : ℚ) (startHour : Option ℕ) : ℤ :=
  min 10 (max 1 (spec_penalty (spec_band hours) startHour))

/-! ## Sleep duration (`/api/sleep` handler, part_000 lines 207-216) -/

/-- Overnight wraparound (part_000 lines 211-213): if the end offset is
at or before the start offset, the end is on the following day, so 1440
minutes are added before subtracting. -/
def wrapEnd (startM endM : ℤ) : ℤ :=
  if endM ≤ startM then endM + 1440 else endM

/-- Minutes slept after wraparound adjustment. -/
def durationMinutes (startM endM : ℤ) : ℤ :=
  wrapEnd startM endM - startM

/-- `parseFloat(x.toFixed(1))` applied to the exact rational value of
`x`: JS `toFixed` rounds to the nearest multiple of 1/10 of its
argument's mathematical value and picks the larger candidate on an exact
tie, which for the positive values produced here is half-up — Mathlib's
`round`. The argument JS hands to `toFixed` is a binary double, so this
models the source faithfully only composed with `roundToDouble` (see
`hoursSleptJs`) or at arguments the double represents exactly. -/
def toFixed1 (q : ℚ) : ℚ :=
  ((round (q * 10) : ℤ) : ℚ) / 10

/-- `hoursSlept` (part_000 line 215) idealised over ℚ: the adjusted
minute difference divided by 60 and rounded half-up to one decimal
place. This coincides with the program exactly when the double quotient
equals the rational quotient (so in particular at the whole-hour 24.0
instance the claims exercise); `hoursSleptJs` is the double-faithful
model. -/
def hoursSlept (startM endM : ℤ) : ℚ :=
  toFixed1 ((durationMinutes startM endM : ℚ) / 60)

/-- Round to the nearest integer, ties to even — the integer-granularity
core of IEEE-754 round-to-nearest-even. -/
def roundHalfEven (x : ℚ) : ℤ :=
  if x - (⌊x⌋ : ℚ) = 1 / 2 then (if ⌊x⌋ % 2 = 0 then ⌊x⌋ else ⌊x⌋ + 1) else round x

/-- binary64 rounding of a positive rational in the normal finite range:
scale by the power of two that puts the value in [2^52, 2^53), round the
mantissa to nearest-even, scale back. Subnormal and overflowing values
(absent from the handler, whose quotients lie in [1/60, 24]) are not
modelled. -/
def roundToDoublePos (q : ℚ) : ℚ :=
  let e : ℤ := 52 - Int.log 2 q
  (roundHalfEven (q * 2 ^ e) : ℚ) / 2 ^ e

/-- The binary64 value JS produces for a rational: round-to-nearest-even
at 53-bit precision, extended to zero and negatives by sign symmetry. -/
def roundToDouble (q : ℚ) : ℚ :=
  if 0 < q then roundToDoublePos q
  else if q < 0 then - roundToDoublePos (-q)
  else 0

/-- The double-faithful model of part_000 line 215: the minute values
and their difference are small integers, exact in binary64, so the one
rounding step is the division by 60, which IEEE requires to be correctly
rounded; `toFixed(1)` then rounds that double's exact value half-up at
one decimal, and the `parseFloat`/JSON round-trip preserves the one-place
decimal reading. -/
def hoursSleptJs (startM endM : ℤ) : ℚ :=
  toFixed1 (roundToDouble ((durationMinutes startM endM : ℚ) / 60))

/-- The handler's stored hours computed from the request's raw time
strings under the double-faithful model. -/
def apiSleepHoursJs (sleepStart sleepEnd : String) : Option ℚ :=
  match timeToMinutes sleepStart, timeToMinutes sleepEnd with
  | some s, some e => some (hoursSleptJs s e)
  | _, _ => none

/-- Rounding to one decimal place as the spec words it (§4.1, "standard
rounding (not truncation)"): multiply by ten, round half up via the
floor of the shifted value, divide by ten. -/
def specRound1 (q : ℚ) : ℚ :=
  ((⌊q * 10 + 1 / 2⌋ : ℤ) : ℚ) / 10

/-- Duration in hours per the spec's words (§4.1): add 1440 to the end
when `end ≤ start` before subtracting; then hours rounded to one decimal
place with standard rounding. -/
def spec_durationHours (startM endM : ℤ) : ℚ :=
  specRound1 ((((if endM ≤ startM then endM + 1440 else endM) - startM : ℤ) : ℚ) / 60)

/-- The handler's minute difference computed from the request's raw time
strings; `none` models a NaN result from an unparsable field. -/
def apiDurationMinutes (sleepStart sleepEnd : String) : Option ℤ :=
  match timeToMinutes sleepStart, timeToMinutes sleepEnd with
  | some s, some e => some (durationMinutes s e)
  | _, _ => none

/-- The handler's `hoursSlept` computed from the request's raw time
strings, under the ℚ-idealisation of `hoursSlept` (exact at the
instances it is used on). -/
def apiSleepHours (sleepStart sleepEnd : String) : Option ℚ :=
  match timeToMinutes sleepStart, timeToMinutes sleepEnd with
  | some s, some e => some (hoursSlept s e)
  | _, _ => none

/-! ## Streak (`calculateStreak`, part_000 lines 99-121) -/

/-- The descending sort of the log dates, as the comparator
`(a, b) => new Date(b.date) - new Date(a.date)` produces. Dates are
midnight-truncated calendar days, modelled as integer day numbers, so
any sort realising the descending order yields the same list. -/
def sortDesc (l : List ℤ) : List ℤ :=
  List.insertionSort (· ≥ ·) l

/-- The loop of `calculateStreak` (part_000 lines 107-118): walk the
sorted logs, incrementing exactly when the whole-day difference between
today and the log equals the current counter, breaking otherwise. -/
def streakWalk (today : ℤ) : List ℤ → ℕ → ℕ
  | [], streak => streak
  | d :: rest, streak =>
      if today - d = (streak : ℤ) then streakWalk today rest (streak + 1) else streak

/-- `calculateStreak(logs)` (part_000 lines 99-121), with "today" (the
caller's midnight-truncated current date) passed explicitly as a day
number. Empty input returns 0 before any sorting. -/
def calculateStreak (today : ℤ) (logs : List ℤ) : ℕ :=
  if logs = [] then 0 else streakWalk today (sortDesc logs) 0

/-! ## Owner lookup and its error mapping
(`getUserByTelegramId`, part_000 lines 41-58, and the catch blocks of
the part_000 handlers versus the `/api/sleep` handler of src/bot.js
lines 129-135) -/

/-- Outcome of the store's `users` select for a submitted owner id:
the row, no row (`maybeSingle` returned null), or a backend error. -/
inductive LookupOutcome where
  | found (userId : ℤ)
  | missing
  | backendError
deriving DecidableEq

/-- `getUserByTelegramId` (part_000 lines 41-58): a backend error throws
`db_error`, an absent row throws `user_not_found`, otherwise the user is
returned. -/
def getUserByTelegramId : LookupOutcome → Except String ℤ
  | .found u => .ok u
  | .missing => .error "user_not_found"
  | .backendError => .error "db_error"

/-- An HTTP error reply: status code and error body. -/
structure HttpResponse where
  status : ℕ
  error : String
deriving DecidableEq

/-- The part_000 `/api/sleep` handler's owner-lookup failure mapping
(lines 196-204): `user_not_found` becomes 404 `user_not_found`, any
other thrown lookup error becomes 500 `db_error`; `none` means the
lookup succeeded and the handler proceeds. -/
def mainSleepOwnerFailure (o : LookupOutcome) : Option HttpResponse :=
  match getUserByTelegramId o with
  | .ok _ => none
  | .error m =>
      if m = "user_not_found" then some ⟨404, "user_not_found"⟩
      else some ⟨500, "db_error"⟩

/-- The src/bot.js `/api/sleep` handler's owner-lookup failure mapping
(lines 129-135): `if (userErr || !user)` returns 400 `user not found`
for a backend error and for an absent row alike. -/
def botSleepOwnerFailure (o : LookupOutcome) : Option HttpResponse :=
  match o with
  | .found _ => none
  | .missing => some ⟨400, "user not found"⟩
  | .backendError => some ⟨400, "user not found"⟩

/-! ## Weight submission validation (`/api/weight`, part_000 lines 255-298) -/

/-- The fragment of JS values a JSON body field can carry that the
weight claims exercise: a number, a string, `undefined` (field absent)
or `null`. -/
inductive JsVal where
  | num (q : ℚ)
  | str (s : String)
  | undef
  | jnull
deriving DecidableEq

/-- The fragment of JS `parseFloat(s)` the weight field exercises: a
string starting with a digit run, optionally followed by `.` and more
digits, parses as that decimal prefix (trailing garbage ignored);
anything else is NaN (`none`). Signed, exponent and leading-dot forms
do not occur in the claims and are mapped to `none`. -/
def parseFloatStr (s : String) : Option ℚ :=
  let intPart := s.data.takeWhile Char.isDigit
  let rest := s.data.dropWhile Char.isDigit
  if intPart = [] then none
  else
    match rest with
    | '.' :: more =>
        let frac := more.takeWhile Char.isDigit
        some ((digitsVal intPart : ℚ) + (digitsVal frac : ℚ) / 10 ^ frac.length)
    | _ => some (digitsVal intPart : ℚ)

/-- `parseFloat(weight)` on a JSON field value; `none` is NaN. -/
def jsParseFloat : JsVal → Option ℚ
  | .num q => some q
  | .str s => parseFloatStr s
  | .undef => none
  | .jnull => none

/-- The part_000 `/api/weight` presence check (line 260):
`weight === undefined || weight === null`. -/
def weightMissing : JsVal → Bool
  | .undef => true
  | .jnull => true
  | _ => false

/-- Error kinds the handlers report. -/
inductive ErrKind where
  | missingFields
  | userNotFound
  | dbError
deriving DecidableEq

/-- The row the weight upsert writes; `none` for `weight_kg` models a
NaN from `parseFloat`, which JSON-serialises as null. -/
structure WeightRow where
  weight_kg : Option ℚ
deriving DecidableEq

/-- The weight-field handling of part_000 `/api/weight` (lines 255-298),
owner resolution aside: an absent (`undefined`/`null`) weight is
rejected with `missing_fields` and nothing is written; any other value
is coerced with `parseFloat` and the upsert is attempted with the
coerced value. -/
def weightSubmit (w : JsVal) : Except ErrKind WeightRow :=
  if weightMissing w then .error .missingFields
  else .ok ⟨jsParseFloat w⟩

/-! ## Settings partial update (`/api/settings`, part_000 lines 402-416) -/

/-- A `users` row, restricted to the columns the settings handler can
see: the immutable identity columns and the two nullable targets. -/
structure User where
  telegram_id : ℤ
  username : Option String
  target_weight_kg : Option ℚ
  target_sleep_hours : Option ℚ
deriving DecidableEq

/-- The update payload the handler builds: for each target column,
`none` means the key was not added to `updateData`, `some v` means the
column is to be set to `v` (`v = none` being an explicit null). -/
structure UpdateData where
  target_weight_kg : Option (Option ℚ)
  target_sleep_hours : Option (Option ℚ)
deriving DecidableEq

/-- `updateData` construction (part_000 lines 402-409): a key is added
exactly when the request field is not `undefined`; `none` for a request
field models an absent (`undefined`) field. -/
def buildUpdateData (targetWeightKg targetSleepHours : Option (Option ℚ)) : UpdateData :=
  { target_weight_kg := match targetWeightKg with
      | some v => some v
      | none => none
    target_sleep_hours := match targetSleepHours with
      | some v => some v
      | none => none }

/-- Modelled from the spec: the external store's
`update(id, partialFields)` (§6), which is not part of this repository.
It overwrites exactly the columns present in the payload and leaves
every other column of the row untouched. -/
def dbUpdateUser (u : User) (d : UpdateData) : User :=
  { u with
    target_weight_kg := d.target_weight_kg.getD u.target_weight_kg
    target_sleep_hours := d.target_sleep_hours.getD u.target_sleep_hours }

/-- The part_000 `/api/settings` update (lines 402-416) applied to the
resolved user row: build `updateData` from the request fields, then let
the store apply it. -/
def settingsUpdate (u : User) (targetWeightKg targetSleepHours : Option (Option ℚ)) : User :=
  dbUpdateUser u (buildUpdateData targetWeightKg targetSleepHours)

/-- Decidable equality for handler results. -/
instance {ε α : Type} [DecidableEq ε] [DecidableEq α] : DecidableEq (Except ε α) := fun a b =>
  match a, b with
  | .ok x, .ok y =>
      if h : x = y then isTrue (congrArg Except.ok h)
      else isFalse (fun hc => h (Except.ok.inj hc))
  | .ok _, .error _ => isFalse (fun hc => Except.noConfusion hc)
  | .error _, .ok _ => isFalse (fun hc => Except.noConfusion hc)
  | .error x, .error y =>
      if h : x = y then isTrue (congrArg Except.error h)
      else isFalse (fun hc => h (Except.error.inj hc))

/-! ## Helper lemmas -/

/-- `Number` on a nonempty digit string yields its decimal value. -/
theorem jsNum_digits (cs : List Char) (h1 : cs ≠ []) (h2 : cs.all Char.isDigit = true) :
    jsNum cs = some (digitsVal cs) := by
  unfold jsNum
  rw [if_neg h1, if_pos h2]

/-- On a well-formed `HH:MM` string, `timeToMinutes` yields a numeric
result bounded by 23 * 60 + 59. -/
theorem tm_valid_bounds (s : String) (h : validHHMM s = true) :
    ∃ m, timeToMinutes s = some m ∧ m ≤ 1439 := by
  unfold validHHMM at h
  split at h
  case h_2 => exact absurd h (by simp)
  case h_1 p0 p1 heq =>
    simp only [Bool.and_eq_true, Bool.not_eq_true', List.isEmpty_eq_false,
      decide_eq_true_eq] at h
    obtain ⟨⟨⟨⟨⟨hne0, hdig0⟩, hne1⟩, hdig1⟩, hb0⟩, hb1⟩ := h
    refine ⟨digitsVal p0 * 60 + digitsVal p1, ?_, by omega⟩
    unfold timeToMinutes
    simp only [heq, jsNum_digits p0 hne0 hdig0, jsNum_digits p1 hne1 hdig1]

/-- `Int.log 2` is determined by the enclosing powers of two. -/
theorem int_log2_eq (q : ℚ) (n : ℤ) (h0 : 0 < q)
    (h1 : (2:ℚ) ^ n ≤ q) (h2 : q < (2:ℚ) ^ (n + 1)) : Int.log 2 q = n := by
  have hcast : ((2:ℕ):ℚ) = (2:ℚ) := by norm_num
  have ha : n ≤ Int.log 2 q := by
    rw [← Int.zpow_le_iff_le_log (by norm_num) h0, hcast]
    exact h1
  have hb : Int.log 2 q < n + 1 := by
    rw [← Int.lt_zpow_iff_log_lt (by norm_num) h0, hcast]
    exact h2
  omega

/-- Nearest-even rounding below the tie point agrees with the floor. -/
theorem roundHalfEven_of_bounds (x : ℚ) (n : ℤ) (h1 : (n:ℚ) ≤ x) (h2 : x < (n:ℚ) + 1/2) :
    roundHalfEven x = n := by
  have hfl : ⌊x⌋ = n := by
    rw [Int.floor_eq_iff]
    exact ⟨h1, by linarith⟩
  unfold roundHalfEven
  rw [hfl]
  rw [if_neg (by intro hc; linarith)]
  rw [round_eq, Int.floor_eq_iff]
  constructor
  · linarith
  · linarith

/-- Evaluation scheme for `roundToDouble` at a positive rational, from
its base-2 logarithm and the rounded mantissa. -/
theorem roundToDouble_eq (q : ℚ) (n e m : ℤ) (h0 : 0 < q)
    (hlog : Int.log 2 q = n) (he : 52 - n = e)
    (hm : roundHalfEven (q * 2 ^ e) = m) :
    roundToDouble q = (m : ℚ) / 2 ^ e := by
  simp only [roundToDouble, roundToDoublePos]
  rw [if_pos h0, hlog, he, hm]

/-- The double nearest 9/60 = 0.15 is 5404319552844595 / 2^55, which is
strictly below 0.15. -/
theorem roundToDouble_9_60 :
    roundToDouble ((9:ℚ) / 60) = (5404319552844595 : ℚ) / 2 ^ (55:ℤ) := by
  have hlog : Int.log 2 ((9:ℚ) / 60) = -3 :=
    int_log2_eq _ _ (by norm_num) (by norm_num) (by norm_num)
  exact roundToDouble_eq _ (-3) 55 5404319552844595 (by norm_num) hlog (by norm_num)
    (roundHalfEven_of_bounds _ _ (by norm_num) (by norm_num))

/-- 465/60 = 7.75 is exactly representable in binary64. -/
theorem roundToDouble_465_60 :
    roundToDouble ((465:ℚ) / 60) = (465:ℚ) / 60 := by
  have hlog : Int.log 2 ((465:ℚ) / 60) = 2 :=
    int_log2_eq _ _ (by norm_num) (by norm_num) (by norm_num)
  have h := roundToDouble_eq ((465:ℚ) / 60) 2 50 8725724278030336 (by norm_num) hlog
    (by norm_num) (roundHalfEven_of_bounds _ _ (by norm_num) (by norm_num))
  rw [h]
  norm_num

/-- A 9-minute duration is stored as 0.1 hours: the double quotient
falls below the 0.15 tie, so `toFixed(1)` rounds down. -/
theorem hoursSleptJs_0_9 : hoursSleptJs 0 9 = 1 / 10 := by
  have hdm : durationMinutes 0 9 = 9 := by decide
  unfold hoursSleptJs
  rw [hdm]
  have h9 : ((9:ℤ):ℚ) / 60 = (9:ℚ) / 60 := by norm_num
  rw [h9, roundToDouble_9_60]
  unfold toFixed1
  rw [round_eq]
  have hfl : ⌊(5404319552844595 : ℚ) / 2 ^ (55:ℤ) * 10 + 1 / 2⌋ = 1 := by
    rw [Int.floor_eq_iff]
    constructor
    · push_cast; norm_num
    · push_cast; norm_num
  rw [hfl]
  norm_num

/-! ## Claim theorems -/

/-- C1: `calculateSleepQuality` coincides with the reference scorer of
§4.2 — base score by duration band with first-match-wins priority
([7,9] → 8, [6,7) → 6, (9,10] → 7, ≤ 5 → 3, otherwise 5), then minus 2
floored at 1 when the supplied start hour is in [1,6) — and in
particular score(8, "22:00") = 8, score(8, "02:00") = 6,
score(4, "23:00") = 3, score(4, "03:00") = 1. -/
theorem sleep_quality_matches_spec :
    (∀ (h : ℚ) (s : Option String),
        calculateSleepQuality h s = score_spec h (jsHourOpt s)) ∧
      calculateSleepQuality 8 (some "22:00") = 8 ∧
      calculateSleepQuality 8 (some "02:00") = 6 ∧
      calculateSleepQuality 4 (some "23:00") = 3 ∧
      calculateSleepQuality 4 (some "03:00") = 1 := by
  refine ⟨?_, by decide, by decide, by decide, by decide⟩
  intro h s
  unfold calculateSleepQuality score_spec applyLatePenalty spec_penalty baseQuality spec_band
  cases jsHourOpt s with
  | none => split_ifs <;> omega
  | some hour => split_ifs <;> omega

/-- C2: `calculateStreak` — which sorts the logs by date descending and
increments a counter exactly while the whole-day difference between
today and the log equals the counter — returns 0 on empty input, 1 for
a single log dated today, 0 for a single log dated yesterday, 3 for
logs on today/yesterday/day-before, and 2 for logs on
today/yesterday/three-days-ago. The log lists are passed in ascending
order to exercise the descending sort. -/
theorem streak_examples :
    ∀ today : ℤ,
      calculateStreak today [] = 0 ∧
      calculateStreak today [today] = 1 ∧
      calculateStreak today [today - 1] = 0 ∧
      calculateStreak today [today - 2, today - 1, today] = 3 ∧
      calculateStreak today [today - 3, today - 1, today] = 2 := by
  intro today
  have h1 : ¬ (today - 1 ≥ today) := by omega
  have h2 : ¬ (today - 2 ≥ today) := by omega
  have h3 : ¬ (today - 3 ≥ today) := by omega
  have h4 : ¬ (today - 2 ≥ today - 1) := by omega
  have h5 : ¬ (today - 3 ≥ today - 1) := by omega
  refine ⟨rfl, ?_, ?_, ?_, ?_⟩
  · simp [calculateStreak, sortDesc, streakWalk]
  · simp [calculateStreak, sortDesc, streakWalk]
  · simp [calculateStreak, sortDesc, List.insertionSort, List.orderedInsert, streakWalk,
      h1, h2, h4]
  · simp [calculateStreak, sortDesc, List.insertionSort, List.orderedInsert, streakWalk,
      h1, h3, h5]

/-- C3: for every duration (any rational) and every start time
(a supplied string or absent), the sleep quality score lies in [1, 10];
it is an integer by the scorer's return type. -/
theorem sleep_quality_range :
    ∀ (h : ℚ) (s : Option String),
      1 ≤ calculateSleepQuality h s ∧ calculateSleepQuality h s ≤ 10 := by
  intro h s
  unfold calculateSleepQuality applyLatePenalty baseQuality
  cases jsHourOpt s with
  | none => constructor <;> split_ifs <;> omega
  | some hour => constructor <;> split_ifs <;> omega

/-- C4 (amended): for every pair of start and end minute offsets, the
sleep duration adds 1440 minutes to the end when end ≤ start before
subtracting; the stored hours value is the binary-double quotient
rounded to one decimal by `toFixed`, which equals the spec's standard
(half-up) rounding of the exact quotient whenever the double represents
that quotient exactly — in particular start "23:30" with end "07:15"
(exactly representable 7.75) yields 7.8 hours — but not at every
duration: see the counterexample theorem for the 9-minute tie. -/
theorem duration_double_rounding :
    (∀ startM endM : ℤ,
        roundToDouble ((durationMinutes startM endM : ℚ) / 60)
            = (durationMinutes startM endM : ℚ) / 60 →
          hoursSleptJs startM endM = spec_durationHours startM endM) ∧
      apiSleepHoursJs "23:30" "07:15" = some (78 / 10 : ℚ) := by
  constructor
  · intro s e h
    unfold hoursSleptJs
    rw [h]
    unfold toFixed1 spec_durationHours specRound1 durationMinutes wrapEnd
    rw [round_eq]
  · have h1 : timeToMinutes "23:30" = some 1410 := by decide
    have h2 : timeToMinutes "07:15" = some 435 := by decide
    unfold apiSleepHoursJs
    simp only [h1, h2, Nat.cast_ofNat]
    have hdm : durationMinutes 1410 435 = 465 := by decide
    unfold hoursSleptJs
    rw [hdm]
    have hc : ((465:ℤ):ℚ) / 60 = (465:ℚ) / 60 := by norm_num
    rw [hc, roundToDouble_465_60]
    unfold toFixed1
    rw [round_eq]
    have h78 : (465:ℚ) / 60 * 10 + 1 / 2 = ((78 : ℤ) : ℚ) := by norm_num
    rw [h78, Int.floor_intCast]
    norm_num

/-- Witness for C4's amended theorem: the 23:30 to 07:15 pair, whose
465-minute duration has an exactly representable quotient 7.75. -/
theorem duration_double_rounding_witness :
    roundToDouble ((durationMinutes 1410 435 : ℚ) / 60)
        = (durationMinutes 1410 435 : ℚ) / 60 ∧
      hoursSleptJs 1410 435 = spec_durationHours 1410 435 := by
  have hdm : durationMinutes 1410 435 = 465 := by decide
  have hrep : roundToDouble ((durationMinutes 1410 435 : ℚ) / 60)
      = (durationMinutes 1410 435 : ℚ) / 60 := by
    rw [hdm]
    have hc : ((465:ℤ):ℚ) / 60 = (465:ℚ) / 60 := by norm_num
    rw [hc]
    exact roundToDouble_465_60
  exact ⟨hrep, duration_double_rounding.1 1410 435 hrep⟩

/-- C4 counterexample: at start "00:00" and end "00:09" the program
stores 0.1 hours — the binary double for 9/60 lies strictly below the
0.15 decimal tie, so `toFixed(1)` rounds down — while standard half-up
rounding of the exact 9-minute quotient gives 0.2, so the claim's
universal standard-rounding clause fails on the code. -/
theorem duration_rounding_cex :
    apiSleepHoursJs "00:00" "00:09" = some (1 / 10 : ℚ) ∧
      spec_durationHours 0 9 = 2 / 10 ∧ (1 / 10 : ℚ) ≠ 2 / 10 := by
  refine ⟨?_, ?_, by norm_num⟩
  · have h1 : timeToMinutes "00:00" = some 0 := by decide
    have h2 : timeToMinutes "00:09" = some 9 := by decide
    unfold apiSleepHoursJs
    simp only [h1, h2, Nat.cast_zero, Nat.cast_ofNat]
    rw [hoursSleptJs_0_9]
  · unfold spec_durationHours specRound1
    rw [if_neg (by norm_num : ¬ ((9:ℤ) ≤ 0))]
    have h2 : (((9:ℤ) - 0 : ℤ) : ℚ) / 60 * 10 + 1 / 2 = ((2 : ℤ) : ℚ) := by norm_num
    rw [h2, Int.floor_intCast]
    norm_num

/-- C5 (amended): `timeToMinutes` raises no error of any kind; on every
string whose two colon-separated fields are digit runs with hours in
0..23 and minutes in 0..59 it returns an integer in [0, 1439] (the lower
bound holds by the ℕ result type). Out-of-range or malformed strings are
not rejected — see the counterexample theorem. -/
theorem timeToMinutes_valid_range (s : String) (h : validHHMM s = true) :
    ∃ m, timeToMinutes s = some m ∧ m ≤ 1439 :=
  tm_valid_bounds s h

/-- Witness for C5's amended theorem at the concrete input "23:30". -/
theorem timeToMinutes_valid_range_witness :
    validHHMM "23:30" = true ∧ ∃ m, timeToMinutes "23:30" = some m ∧ m ≤ 1439 :=
  ⟨by decide, timeToMinutes_valid_range "23:30" (by decide)⟩

/-- C5 counterexample: "25:99" does not parse as two colon-separated
integers in valid ranges, yet `timeToMinutes` does not fail with any
error — it successfully returns 1599, outside [0, 1439]. -/
theorem timeToMinutes_no_invalid_format_cex :
    validHHMM "25:99" = false ∧ timeToMinutes "25:99" = some 1599 := by
  constructor <;> decide

/-- C6: the part_000 `/api/sleep` handler reports an unregistered owner
as 404 `user_not_found` and a lookup backend error as 500 `db_error`,
distinctly; the older src/bot.js `/api/sleep` handler collapses the two
cases into one identical 400 response, contradicting the intended
contract the spec states in §7/§9. -/
theorem owner_lookup_error_collapse :
    mainSleepOwnerFailure .missing = some ⟨404, "user_not_found"⟩ ∧
      mainSleepOwnerFailure .backendError = some ⟨500, "db_error"⟩ ∧
      botSleepOwnerFailure .backendError = botSleepOwnerFailure .missing := by
  refine ⟨by decide, by decide, by decide⟩

/-- C7 (amended): the weight handler rejects only an absent
(`undefined` or `null`) weight, with `missing_fields` and no write; any
present weight — numeric or not — is accepted and the upsert is
attempted with `parseFloat(weight)` (NaN for a non-numeric string,
72.5 for the string "72.5"). -/
theorem weight_validation_behavior :
    (∀ q : ℚ, weightSubmit (.num q) = .ok ⟨some q⟩) ∧
      (∀ s : String, weightSubmit (.str s) = .ok ⟨parseFloatStr s⟩) ∧
      weightSubmit .undef = .error .missingFields ∧
      weightSubmit .jnull = .error .missingFields ∧
      weightSubmit (.str "72.5") = .ok ⟨some (145 / 2 : ℚ)⟩ := by
  refine ⟨fun q => rfl, fun s => rfl, rfl, rfl, ?_⟩
  have ht : "72.5".data.takeWhile Char.isDigit = ['7', '2'] := by decide
  have hd : "72.5".data.dropWhile Char.isDigit = ['.', '5'] := by decide
  have ht2 : List.takeWhile Char.isDigit ['5'] = ['5'] := by decide
  have h72 : digitsVal ['7', '2'] = 72 := by decide
  have h5 : digitsVal ['5'] = 5 := by decide
  simp only [weightSubmit, weightMissing, jsParseFloat, parseFloatStr, ht, hd, ht2, h72, h5]
  norm_num
  intro h
  exact List.noConfusion h

/-- C7 counterexample: the present but non-numeric weight "abc"
(`parseFloat` gives NaN, modelled as `none`) is not rejected — the
handler proceeds to the upsert with a NaN `weight_kg`. -/
theorem weight_non_numeric_accepted_cex :
    weightSubmit (JsVal.str "abc") = Except.ok ⟨none⟩ ∧
      jsParseFloat (JsVal.str "abc") = none := by
  constructor <;> decide

/-- C8: the settings update mutates exactly the supplied target fields:
each absent field keeps its prior value, each supplied field takes the
supplied value, the identity columns are never touched, and in
particular submitting only targetWeightKg leaves targetSleepHours (and
everything else) unchanged. -/
theorem settings_partial_update :
    ∀ (u : User) (tW tS : Option (Option ℚ)),
      (settingsUpdate u tW tS).target_weight_kg = tW.getD u.target_weight_kg ∧
      (settingsUpdate u tW tS).target_sleep_hours = tS.getD u.target_sleep_hours ∧
      (settingsUpdate u tW tS).telegram_id = u.telegram_id ∧
      (settingsUpdate u tW tS).username = u.username ∧
      (∀ v, settingsUpdate u (some v) none = { u with target_weight_kg := v }) := by
  intro u tW tS
  refine ⟨?_, ?_, rfl, rfl, fun v => rfl⟩
  · cases tW <;> rfl
  · cases tS <;> rfl

/-- C9: for well-formed start and end times, the wraparound-adjusted
duration in minutes lies in [1, 1440], and identical start and end times
yield exactly 24.0 hours slept, never 0. -/
theorem duration_bounds :
    ∀ s e : String, validHHMM s = true → validHHMM e = true →
      (∃ d, apiDurationMinutes s e = some d ∧ 1 ≤ d ∧ d ≤ 1440) ∧
        apiSleepHours s s = some 24 := by
  intro s e hs he
  obtain ⟨ms, hms, hbs⟩ := tm_valid_bounds s hs
  obtain ⟨me, hme, hbe⟩ := tm_valid_bounds e he
  constructor
  · refine ⟨durationMinutes ms me, ?_, ?_⟩
    · unfold apiDurationMinutes
      simp only [hms, hme]
    · unfold durationMinutes wrapEnd
      split_ifs <;> omega
  · have hdur : durationMinutes (ms : ℤ) (ms : ℤ) = 1440 := by
      unfold durationMinutes wrapEnd
      rw [if_pos le_rfl]
      ring
    unfold apiSleepHours
    simp only [hms, hoursSlept, toFixed1, hdur]
    have h24 : ((1440 : ℤ) : ℚ) / 60 * 10 = ((240 : ℤ) : ℚ) := by norm_num
    rw [h24, round_intCast]
    norm_num

/-- Witness for C9 at the concrete inputs "22:00" and "07:15", and for
the identical-times part at "22:00". -/
theorem duration_bounds_witness :
    validHHMM "22:00" = true ∧ validHHMM "07:15" = true ∧
      ((∃ d, apiDurationMinutes "22:00" "07:15" = some d ∧ 1 ≤ d ∧ d ≤ 1440) ∧
        apiSleepHours "22:00" "22:00" = some 24) :=
  ⟨by decide, by decide, duration_bounds "22:00" "07:15" (by decide) (by decide)⟩

/-- C10: whenever some log is dated strictly after today, the streak is
0: the future log sorts first, its whole-day difference from today is
negative and never equals the counter, so the walk stops immediately
even when today and prior consecutive days are also logged. -/
theorem streak_future_log :
    ∀ (today : ℤ) (logs : List ℤ), (∃ d ∈ logs, today < d) →
      calculateStreak today logs = 0 := by
  intro today logs h
  obtain ⟨d, hd, hlt⟩ := h
  have hne : logs ≠ [] := by rintro rfl; exact absurd hd (List.not_mem_nil d)
  unfold calculateStreak
  rw [if_neg hne]
  have hd' : d ∈ sortDesc logs := by
    simpa [sortDesc, List.mem_insertionSort] using hd
  have hsorted : List.Sorted (· ≥ ·) (sortDesc logs) := List.sorted_insertionSort _ _
  cases hs : sortDesc logs with
  | nil => rw [hs] at hd'; exact absurd hd' (List.not_mem_nil d)
  | cons a t =>
      rw [hs] at hd' hsorted
      have ha : today < a := by
        rcases List.mem_cons.1 hd' with rfl | hmem
        · exact hlt
        · exact hlt.trans_le (List.rel_of_sorted_cons hsorted d hmem)
      simp only [streakWalk]
      rw [if_neg (by omega : ¬ (today - a = ((0 : ℕ) : ℤ)))]

/-- Witness for C10: today and yesterday are logged, but so is tomorrow,
so the streak is 0. -/
theorem streak_future_log_witness :
    (∃ d ∈ ([0, -1, 1] : List ℤ), (0 : ℤ) < d) ∧
      calculateStreak 0 ([0, -1, 1] : List ℤ) = 0 :=
  ⟨by decide, streak_future_log 0 [0, -1, 1] (by decide)⟩

end Aura
